import Mathlib

/-!
# BloggerSphere: comment pipeline of `script.js`

Shallow embedding of the response generator (`generateAIResponse`), the
comment store (`saveComment`, `loadComments`) and the controller
(`handleCommentSubmit`, `loadNews`) of `src/script.js`.

Conventions of the embedding.

* A JavaScript string is the list of its UTF-16 code units (`JSString`).
* `String.prototype.toLowerCase` depends on the Unicode case tables; it is a
  parameter `toLowerCase` of every definition that calls it.
* `Math.random()` is a parameter `rnd : ℚ`; its contract is `0 ≤ rnd < 1`.
  The product `rnd * length` is computed exactly.
* `undefined` results of `generateAIResponse` are `none`.
* `JSON.parse` / `JSON.stringify` are modelled on code units.  A number is kept
  as its JSON text (its float64 value is never inspected by the script), and
  the properties of a parsed object are kept in the order written, a property
  read taking the last occurrence of its key.
* The remote service is an oracle: each awaited call is given its outcome.
* `localStorage.setItem` may fail (storage quota): the flag `setItemOk` of a
  call says whether the write is accepted.
-/

namespace BloggerSphere

/-- A JavaScript string: the sequence of its UTF-16 code units. -/
abbrev JSString := List Nat

/-- The code units of a source literal (all literals of the script that are
modelled are in the Basic Multilingual Plane). -/
def lit (s : String) : JSString := s.toList.map Char.toNat

/-- `s.startsWith(k)` at position 0, on code units. -/
def startsWith : JSString → JSString → Bool
  | _, [] => true
  | [], _ :: _ => false
  | c :: s, d :: k => c == d && startsWith s k

/-- `s.includes(k)`: `k` occurs in `s` as a contiguous run of code units. -/
def includes : JSString → JSString → Bool
  | [], k => startsWith [] k
  | c :: s, k => startsWith (c :: s) k || includes s k

/-- One entry of `aiResponseTemplates`. -/
structure Template where
  keywords : List JSString
  responses : List JSString
deriving DecidableEq, Repr

/-- First entry of `aiResponseTemplates` (lines 81-88): positive sentiment. -/
def templatePositive : Template :=
  { keywords := [lit "agree", lit "great", lit "amazing", lit "awesome", lit "love"],
    responses :=
      [ lit "Thank you for sharing your positive perspective! It's wonderful to see such enthusiasm about this topic.",
        lit "I appreciate your supportive comment. Your optimism about this development is truly encouraging.",
        lit "It's great to hear from someone who shares excitement about these advancements. Thank you for your input!" ] }

/-- Second entry of `aiResponseTemplates` (lines 89-96): negative sentiment. -/
def templateNegative : Template :=
  { keywords := [lit "disagree", lit "wrong", lit "bad", lit "terrible", lit "hate"],
    responses :=
      [ lit "I understand you have concerns about this topic. Different perspectives help us have more balanced discussions.",
        lit "Thank you for sharing your viewpoint. It's important to consider various angles on complex issues like this.",
        lit "I appreciate you taking the time to share your thoughts, even if they differ from others. Diverse opinions enrich our understanding." ] }

/-- Third entry of `aiResponseTemplates` (lines 97-104): questions. -/
def templateQuestion : Template :=
  { keywords := [lit "question", lit "how", lit "why", lit "what", lit "when", lit "?"],
    responses :=
      [ lit "That's an excellent question! While I don't have all the details, I'd encourage looking into the original research for more comprehensive information.",
        lit "Great question! This topic certainly raises many interesting points worth exploring further.",
        lit "You've raised an important question that many others are probably wondering about too. Thank you for bringing it up!" ] }

/-- Fourth entry of `aiResponseTemplates` (lines 105-112): concerns. -/
def templateConcern : Template :=
  { keywords := [lit "concern", lit "worried", lit "problem", lit "issue", lit "risk"],
    responses :=
      [ lit "Your concerns are valid and worth discussing. It's important to consider both the benefits and potential challenges of any new development.",
        lit "Thank you for raising these important concerns. Thoughtful consideration of potential issues is crucial for responsible progress.",
        lit "I appreciate you highlighting these concerns. It's through careful examination of potential risks that we can work toward better solutions." ] }

/-- `aiResponseTemplates` (script.js lines 80-113), in source order. -/
def aiResponseTemplates : List Template :=
  [templatePositive, templateNegative, templateQuestion, templateConcern]

/-- The local `defaultResponses` of `generateAIResponse` (lines 163-167). -/
def defaultResponses : List JSString :=
  [ lit "Thank you for sharing your thoughts on this topic. Your perspective adds valuable insight to the discussion.",
    lit "I appreciate you taking the time to comment. It's always interesting to hear different viewpoints on current events.",
    lit "Thanks for engaging with this story. Community discussions like this help us all stay informed and think critically." ]

/-- `template.keywords.some(keyword => lowerComment.includes(keyword))`. -/
def templateMatches (lowerComment : JSString) (template : Template) : Bool :=
  template.keywords.any (fun keyword => includes lowerComment keyword)

/-- `responses[Math.floor(Math.random() * responses.length)]`; an index outside
the array reads `undefined` (`none`). -/
def pickRandom (rnd : ℚ) (responses : List JSString) : Option JSString :=
  let randomIndex : Int := Int.floor (rnd * (responses.length : ℚ))
  if 0 ≤ randomIndex then responses.get? randomIndex.toNat else none

/-- The `for (const template of aiResponseTemplates)` loop of
`generateAIResponse`, followed by the default branch. -/
def generateLoop (lowerComment : JSString) (rnd : ℚ) : List Template → Option JSString
  | [] => pickRandom rnd defaultResponses
  | template :: more =>
    if templateMatches lowerComment template then pickRandom rnd template.responses
    else generateLoop lowerComment rnd more

/-- `generateAIResponse(commentText)` (lines 151-171). -/
def generateAIResponse (toLowerCase : JSString → JSString) (rnd : ℚ)
    (commentText : JSString) : Option JSString :=
  let lowerComment := toLowerCase commentText
  generateLoop lowerComment rnd aiResponseTemplates

/-- ASCII lower-casing, the restriction of `toLowerCase` to ASCII text. -/
def asciiLower (s : JSString) : JSString :=
  s.map (fun c => if 65 ≤ c ∧ c ≤ 90 then c + 32 else c)


/-! ## JavaScript values and JSON -/

/-- The JavaScript values that occur in the store and in the comment list. -/
inductive JSValue where
  | undefined
  | null
  | bool (b : Bool)
  | num (text : JSString)
  | str (s : JSString)
  | arr (items : List JSValue)
  | obj (props : List (JSString × JSValue))

/-- Errors thrown by the built-ins and by the remote client. -/
inductive JSError where
  | syntaxError
  | typeError
  | quotaExceeded
  | remoteError
deriving DecidableEq, Repr

/-- `Array.prototype.join(",")` on already serialised parts. -/
def joinComma : List JSString → JSString
  | [] => []
  | [x] => x
  | x :: y :: more => x ++ 0x2C :: joinComma (y :: more)

/-- Lower-case hexadecimal digit of a nibble. -/
def hexDigit (n : Nat) : Nat := if n < 10 then 48 + n else 87 + n

/-- `\uXXXX` escape of a code unit (UnicodeEscape of ECMA-262). -/
def unicodeEscape (c : Nat) : JSString :=
  [0x5C, 0x75, hexDigit (c / 4096 % 16), hexDigit (c / 256 % 16), hexDigit (c / 16 % 16),
    hexDigit (c % 16)]

def isLeadSurrogate (c : Nat) : Bool := 0xD800 ≤ c && c ≤ 0xDBFF

def isTrailSurrogate (c : Nat) : Bool := 0xDC00 ≤ c && c ≤ 0xDFFF

/-- QuoteJSONString on one code unit that is not part of a surrogate pair. -/
def quoteUnit (c : Nat) : JSString :=
  if c = 0x08 then [0x5C, 0x62]
  else if c = 0x09 then [0x5C, 0x74]
  else if c = 0x0A then [0x5C, 0x6E]
  else if c = 0x0C then [0x5C, 0x66]
  else if c = 0x0D then [0x5C, 0x72]
  else if c = 0x22 then [0x5C, 0x22]
  else if c = 0x5C then [0x5C, 0x5C]
  else if c < 0x20 || isLeadSurrogate c || isTrailSurrogate c then unicodeEscape c
  else [c]

/-- QuoteJSONString without the enclosing quotes: a well-formed surrogate pair
is copied, every other unit goes through `quoteUnit`. -/
def quoteUnits : JSString → JSString
  | [] => []
  | [c] => quoteUnit c
  | c :: d :: rest =>
    if isLeadSurrogate c && isTrailSurrogate d then c :: d :: quoteUnits rest
    else quoteUnit c ++ quoteUnits (d :: rest)

def quoteJSONString (s : JSString) : JSString := 0x22 :: quoteUnits s ++ [0x22]

mutual
/-- `JSON.stringify(v)` for a value inside an array or an object (an
`undefined` array element is written `null`). -/
def stringify : JSValue → JSString
  | .undefined => lit "null"
  | .null => lit "null"
  | .bool true => lit "true"
  | .bool false => lit "false"
  | .num text => text
  | .str s => quoteJSONString s
  | .arr items => 0x5B :: joinComma (itemTexts items) ++ [0x5D]
  | .obj props => 0x7B :: joinComma (memberTexts props) ++ [0x7D]
/-- Serialised elements of an array. -/
def itemTexts : List JSValue → List JSString
  | [] => []
  | v :: vs => stringify v :: itemTexts vs
/-- Serialised members of an object; a property whose value is `undefined` is
left out. -/
def memberTexts : List (JSString × JSValue) → List JSString
  | [] => []
  | (_, .undefined) :: ps => memberTexts ps
  | (k, v) :: ps => (quoteJSONString k ++ 0x3A :: stringify v) :: memberTexts ps
end

def hexVal (c : Nat) : Option Nat :=
  if 48 ≤ c ∧ c ≤ 57 then some (c - 48)
  else if 97 ≤ c ∧ c ≤ 102 then some (c - 87)
  else if 65 ≤ c ∧ c ≤ 70 then some (c - 55)
  else none

/-- The single-character escapes of a JSON string. -/
def unescape (e : Nat) : Option Nat :=
  if e = 0x22 then some 0x22
  else if e = 0x5C then some 0x5C
  else if e = 0x2F then some 0x2F
  else if e = 0x62 then some 0x08
  else if e = 0x66 then some 0x0C
  else if e = 0x6E then some 0x0A
  else if e = 0x72 then some 0x0D
  else if e = 0x74 then some 0x09
  else none

/-- A JSON string after its opening quote: the decoded units and the input
left after the closing quote. -/
def parseStringBody : JSString → Option (JSString × JSString)
  | [] => none
  | c :: rest =>
    if c = 0x22 then some ([], rest)
    else if c = 0x5C then
      match rest with
      | [] => none
      | e :: rest2 =>
        if e = 0x75 then
          match rest2 with
          | h1 :: h2 :: h3 :: h4 :: rest3 =>
            match hexVal h1, hexVal h2, hexVal h3, hexVal h4 with
            | some a, some b, some c, some d =>
              (parseStringBody rest3).map fun (s, r) => ((a * 4096 + b * 256 + c * 16 + d) :: s, r)
            | _, _, _, _ => none
          | _ => none
        else
          match unescape e with
          | some u => (parseStringBody rest2).map fun (s, r) => (u :: s, r)
          | none => none
    else if c < 0x20 then none
    else (parseStringBody rest).map fun (s, r) => (c :: s, r)

def isJSONWhitespace (c : Nat) : Bool := c = 0x20 || c = 0x09 || c = 0x0A || c = 0x0D

def skipWs : JSString → JSString
  | [] => []
  | c :: rest => if isJSONWhitespace c then skipWs rest else c :: rest

def isDigit (c : Nat) : Bool := 48 ≤ c && c ≤ 57

def takeDigits : JSString → JSString × JSString
  | [] => ([], [])
  | c :: rest =>
    if isDigit c then (c :: (takeDigits rest).1, (takeDigits rest).2) else ([], c :: rest)

/-- Integer part of a JSON number: `0`, or a digit `1-9` followed by digits. -/
def parseInt : JSString → Option (JSString × JSString)
  | [] => none
  | c :: rest =>
    if c = 48 then some ([48], rest)
    else if isDigit c then some (c :: (takeDigits rest).1, (takeDigits rest).2)
    else none

/-- Optional fraction of a JSON number. -/
def parseFrac : JSString → Option (JSString × JSString)
  | 0x2E :: c :: rest =>
    if isDigit c then some (0x2E :: c :: (takeDigits rest).1, (takeDigits rest).2) else none
  | input => some ([], input)

def parseExpDigits (pre : JSString) : JSString → Option (JSString × JSString)
  | c :: rest =>
    if isDigit c then some (pre ++ c :: (takeDigits rest).1, (takeDigits rest).2) else none
  | [] => none

/-- Optional exponent of a JSON number. -/
def parseExp : JSString → Option (JSString × JSString)
  | [] => some ([], [])
  | e :: rest =>
    if e = 0x65 ∨ e = 0x45 then
      match rest with
      | [] => none
      | sgn :: rest2 =>
        if sgn = 0x2B ∨ sgn = 0x2D then parseExpDigits [e, sgn] rest2
        else parseExpDigits [e] (sgn :: rest2)
    else some ([], e :: rest)

/-- A JSON number: its text and the input left. -/
def parseNumber (input : JSString) : Option (JSString × JSString) :=
  let (sign, afterSign) := match input with
    | 0x2D :: rest => ([0x2D], rest)
    | _ => ([], input)
  match parseInt afterSign with
  | none => none
  | some (int, r1) =>
    match parseFrac r1 with
    | none => none
    | some (frac, r2) =>
      match parseExp r2 with
      | none => none
      | some (exp, r3) => some (sign ++ int ++ frac ++ exp, r3)

mutual
/-- A JSON value; `fuel` bounds the nesting of recursive calls. -/
def parseValue : Nat → JSString → Option (JSValue × JSString)
  | 0, _ => none
  | fuel + 1, input =>
    match skipWs input with
    | [] => none
    | c :: rest =>
      if c = 0x22 then (parseStringBody rest).map fun (s, r) => (JSValue.str s, r)
      else if c = 0x5B then
        match skipWs rest with
        | [] => none
        | d :: rest2 =>
          if d = 0x5D then some (JSValue.arr [], rest2)
          else (parseElements fuel (d :: rest2)).map fun (vs, r) => (JSValue.arr vs, r)
      else if c = 0x7B then
        match skipWs rest with
        | [] => none
        | d :: rest2 =>
          if d = 0x7D then some (JSValue.obj [], rest2)
          else (parseMembers fuel (d :: rest2)).map fun (ps, r) => (JSValue.obj ps, r)
      else if startsWith (c :: rest) (lit "true") then some (JSValue.bool true, rest.drop 3)
      else if startsWith (c :: rest) (lit "false") then some (JSValue.bool false, rest.drop 4)
      else if startsWith (c :: rest) (lit "null") then some (JSValue.null, rest.drop 3)
      else (parseNumber (c :: rest)).map fun (t, r) => (JSValue.num t, r)
/-- The elements of a non-empty JSON array, up to and including `]`. -/
def parseElements : Nat → JSString → Option (List JSValue × JSString)
  | 0, _ => none
  | fuel + 1, input =>
    match parseValue fuel input with
    | none => none
    | some (v, rest) =>
      match skipWs rest with
      | [] => none
      | c :: rest2 =>
        if c = 0x2C then (parseElements fuel rest2).map fun (vs, r) => (v :: vs, r)
        else if c = 0x5D then some ([v], rest2)
        else none
/-- The members of a non-empty JSON object, up to and including `}`. -/
def parseMembers : Nat → JSString → Option (List (JSString × JSValue) × JSString)
  | 0, _ => none
  | fuel + 1, input =>
    match skipWs input with
    | [] => none
    | c :: rest =>
      if c = 0x22 then
        match parseStringBody rest with
        | none => none
        | some (key, rest2) =>
          match skipWs rest2 with
          | [] => none
          | d :: rest3 =>
            if d = 0x3A then
              match parseValue fuel rest3 with
              | none => none
              | some (v, rest4) =>
                match skipWs rest4 with
                | [] => none
                | e :: rest5 =>
                  if e = 0x2C then
                    (parseMembers fuel rest5).map fun (ps, r) => ((key, v) :: ps, r)
                  else if e = 0x7D then some ([(key, v)], rest5)
                  else none
            else none
      else none
end

/-- `JSON.parse(text)`: the value, or a `SyntaxError`.  Each nested call of
the parser consumes a code unit at least every second step, so the fuel
`2 * length + 2` is never exhausted. -/
def JSON.parse (text : JSString) : Except JSError JSValue :=
  match parseValue (2 * text.length + 2) text with
  | none => .error .syntaxError
  | some (v, rest) => if skipWs rest = [] then .ok v else .error .syntaxError

/-- Own property of an object literal or parsed object; the last occurrence
of a key is the one that counts. -/
def findProp (key : JSString) : List (JSString × JSValue) → Option JSValue
  | [] => none
  | (k, v) :: ps =>
    match findProp key ps with
    | some w => some w
    | none => if k = key then some v else none

/-- The property read `value.post_id`: a `TypeError` on `null` and `undefined`,
`undefined` when the property is absent (no prototype defines `post_id`). -/
def readPostId : JSValue → Except JSError JSValue
  | .undefined => .error .typeError
  | .null => .error .typeError
  | .obj props => .ok ((findProp (lit "post_id") props).getD .undefined)
  | _ => .ok .undefined

/-- The comparison `value === postId` where `postId` is a string. -/
def strictEqualsString : JSValue → JSString → Bool
  | .str s, postId => decide (s = postId)
  | _, _ => false

/-! ## Comment store -/

/-- A Comment Record: the object literal of `handleCommentSubmit` with all six
properties defined. -/
structure Comment where
  id : JSString
  post_id : JSString
  author_name : JSString
  content : JSString
  created_at : JSString
  ai_response : JSString
deriving DecidableEq, Repr

/-- The JavaScript object of a Comment Record, properties in source order. -/
def Comment.toJS (c : Comment) : JSValue :=
  .obj [ (lit "id", .str c.id), (lit "post_id", .str c.post_id),
         (lit "author_name", .str c.author_name), (lit "content", .str c.content),
         (lit "created_at", .str c.created_at), (lit "ai_response", .str c.ai_response) ]

/-- Properties whose values are all strings. -/
def strProps (kvs : List (JSString × JSString)) : List (JSString × JSValue) :=
  kvs.map fun kv => (kv.1, JSValue.str kv.2)

/-- The properties of a Comment Record, in source order. -/
def Comment.fields (c : Comment) : List (JSString × JSString) :=
  [ (lit "id", c.id), (lit "post_id", c.post_id), (lit "author_name", c.author_name),
    (lit "content", c.content), (lit "created_at", c.created_at),
    (lit "ai_response", c.ai_response) ]

/-- The `{ data, error }` reply of `insert([comment]).select().single()`. -/
structure InsertReply where
  data : JSValue
  error : Option JSError

/-- The `{ data, error }` reply of the `select('*').eq(...).order(...)` query;
`data` is `null` or an array of rows. -/
structure QueryReply where
  data : Option (List JSValue)
  error : Option JSError

/-- The configured remote client, as the outcome it gives to each awaited
call: `Except.error` is a rejected promise. -/
structure SupabaseClient where
  insert : JSValue → Except JSError InsertReply
  select : JSString → Except JSError QueryReply

/-- `localStorage.getItem('comments') || '[]'`: the default replaces a missing
item and the empty string. -/
def getItemOrDefault (storage : Option JSString) : JSString :=
  match storage with
  | none => lit "[]"
  | some text => if text = [] then lit "[]" else text

/-- `saveComment(comment)` (lines 174-196).  `storage` is the item `'comments'`
of `localStorage` (`none` when absent); the result is the value returned or the
error thrown, and the item afterwards. -/
def saveComment (supabase : Option SupabaseClient) (setItemOk : Bool)
    (storage : Option JSString) (comment : JSValue) :
    Except JSError JSValue × Option JSString :=
  match supabase with
  | none =>
    match JSON.parse (getItemOrDefault storage) with
    | .error e => (.error e, storage)
    | .ok (.arr savedComments) =>
      if setItemOk then
        (.ok comment, some (stringify (.arr (savedComments ++ [comment]))))
      else (.error .quotaExceeded, storage)
    | .ok _ => (.error .typeError, storage)
  | some client =>
    match client.insert comment with
    | .error e => (.error e, storage)
    | .ok reply =>
      match reply.error with
      | some e => (.error e, storage)
      | none => (.ok reply.data, storage)

/-- `savedComments.filter(comment => comment.post_id === postId)`; the callback
throws on a `null` element. -/
def filterByPost (postId : JSString) : List JSValue → Except JSError (List JSValue)
  | [] => .ok []
  | comment :: more =>
    match readPostId comment with
    | .error e => .error e
    | .ok v =>
      match filterByPost postId more with
      | .error e => .error e
      | .ok kept => .ok (if strictEqualsString v postId then comment :: kept else kept)

/-- `loadComments(postId)` (lines 198-218): the array returned or the error
thrown, and the item `'comments'` afterwards. -/
def loadComments (supabase : Option SupabaseClient) (storage : Option JSString)
    (postId : JSString) : Except JSError (List JSValue) × Option JSString :=
  match supabase with
  | none =>
    match JSON.parse (getItemOrDefault storage) with
    | .error e => (.error e, storage)
    | .ok (.arr savedComments) => (filterByPost postId savedComments, storage)
    | .ok _ => (.error .typeError, storage)
  | some client =>
    match client.select postId with
    | .error _ => (.ok [], storage)
    | .ok reply =>
      match reply.error with
      | some _ => (.ok [], storage)
      | none => (.ok (reply.data.getD []), storage)

/-! ## Controller -/

/-- The featured Content Item, as far as the comment pipeline reads it. -/
structure Post where
  id : JSString
  title : JSString
deriving DecidableEq, Repr

/-- `mockNewsData.featured` (lines 37-53). -/
def mockNewsData.featured : Post :=
  { id := lit "news-1",
    title := lit "Major Technology Breakthrough Announced by Leading Research Institute" }

/-- Which of `loading`, `mainContent`, `errorState` is displayed. -/
inductive Phase where
  | loading
  | ready
  | error
deriving DecidableEq, Repr

/-- The module state (`currentPost`, `comments`), the item `'comments'` of
`localStorage`, and the panel displayed. -/
structure AppState where
  currentPost : Option Post
  comments : List JSValue
  localStorage : Option JSString
  phase : Phase

/-- Observable effects of a handler, in program order. -/
inductive Event where
  | toast (message : JSString) (type : JSString)
  | saveCommentCall (comment : JSValue)
  | formReset

/-- ECMAScript WhiteSpace and LineTerminator code units, stripped by `trim`. -/
def isTrimmable (c : Nat) : Bool :=
  c = 0x09 || c = 0x0A || c = 0x0B || c = 0x0C || c = 0x0D || c = 0x20 || c = 0xA0 ||
  c = 0x1680 || (0x2000 ≤ c && c ≤ 0x200A) || c = 0x2028 || c = 0x2029 || c = 0x202F ||
  c = 0x205F || c = 0x3000 || c = 0xFEFF

/-- `String.prototype.trim`. -/
def trim (s : JSString) : JSString :=
  ((s.dropWhile isTrimmable).reverse.dropWhile isTrimmable).reverse

/-- What one submission reads from its environment. -/
structure SubmitInput where
  /-- `elements.commenterName.value` -/
  name : JSString
  /-- `elements.commentText.value` -/
  text : JSString
  /-- `uuidv4()` -/
  uuid : JSString
  /-- `new Date().toISOString()` -/
  now : JSString
  /-- `Math.random()` -/
  rnd : ℚ
  /-- whether `localStorage.setItem` accepts the write -/
  setItemOk : Bool

/-- The object literal `comment` of `handleCommentSubmit` (lines 299-306);
`name` and `text` are the trimmed field values. -/
def buildComment (toLowerCase : JSString → JSString) (post : Post) (name text : JSString)
    (inp : SubmitInput) : JSValue :=
  .obj [ (lit "id", .str inp.uuid), (lit "post_id", .str post.id),
         (lit "author_name", .str name), (lit "content", .str text),
         (lit "created_at", .str inp.now),
         (lit "ai_response",
            match generateAIResponse toLowerCase inp.rnd text with
            | some response => .str response
            | none => .undefined) ]

/-- `displayFeaturedPost(post)` (lines 221-237): sets `currentPost`; the
rendering is not modelled. -/
def displayFeaturedPost (post : Post) (st : AppState) : AppState :=
  { st with currentPost := some post }

/-- `displayComments(commentsList)` (lines 251-278): sets `comments`; the
rendering is not modelled. -/
def displayComments (commentsList : List JSValue) (st : AppState) : AppState :=
  { st with comments := commentsList }

/-- `handleCommentSubmit(event)` (lines 281-329): the state afterwards and the
effects performed (the toast scheduled two seconds after a success is not
recorded). -/
def handleCommentSubmit (toLowerCase : JSString → JSString) (supabase : Option SupabaseClient)
    (inp : SubmitInput) (st : AppState) : AppState × List Event :=
  let name := trim inp.name
  let text := trim inp.text
  if name = [] ∨ text = [] then
    (st, [.toast (lit "Please fill in all fields") (lit "error")])
  else
    match st.currentPost with
    | none => (st, [.toast (lit "No post selected") (lit "error")])
    | some post =>
      let comment := buildComment toLowerCase post name text inp
      match saveComment supabase inp.setItemOk st.localStorage comment with
      | (.ok _, storage) =>
        (displayComments (st.comments ++ [comment]) { st with localStorage := storage },
          [.saveCommentCall comment, .formReset,
           .toast (lit "Comment posted successfully!") (lit "success")])
      | (.error _, storage) =>
        ({ st with localStorage := storage },
          [.saveCommentCall comment,
           .toast (lit "Failed to post comment. Please try again.") (lit "error")])

/-- `loadNews()` (lines 331-365): the panels are switched to `loading`, the
featured post is displayed, and the comments returned by `loadComments` are
displayed; an error thrown by `loadComments` is caught and shows the error
panel. -/
def loadNews (supabase : Option SupabaseClient) (st : AppState) : AppState × List Event :=
  let st1 := displayFeaturedPost mockNewsData.featured { st with phase := Phase.loading }
  match loadComments supabase st1.localStorage mockNewsData.featured.id with
  | (.ok postComments, storage) =>
    ({ displayComments postComments { st1 with localStorage := storage } with
        phase := Phase.ready },
      [.toast (lit "News loaded successfully!") (lit "success")])
  | (.error _, storage) =>
    ({ st1 with localStorage := storage, phase := Phase.error },
      [.toast (lit "Failed to load news") (lit "error")])

/-- Successive submissions, in order. -/
def submitAll (toLowerCase : JSString → JSString) (supabase : Option SupabaseClient) :
    List SubmitInput → AppState → AppState
  | [], st => st
  | inp :: more, st =>
    submitAll toLowerCase supabase more (handleCommentSubmit toLowerCase supabase inp st).1

/-- Successive `saveComment` calls on the local store, every write accepted:
the item `'comments'` afterwards. -/
def saveAll : List JSValue → Option JSString → Option JSString
  | [], storage => storage
  | comment :: more, storage => saveAll more (saveComment none true storage comment).2

/-- The item `'comments'` holds the JSON text of the records `cs`, in order
(a missing item holds none). -/
def Holds (storage : Option JSString) (cs : List Comment) : Prop :=
  JSON.parse (getItemOrDefault storage) = .ok (JSValue.arr (cs.map Comment.toJS))

/-- The displayed comments are what `loadComments` reads for the featured post
from a store of Comment Records. -/
def Consistent (st : AppState) : Prop :=
  st.currentPost = some mockNewsData.featured ∧
  ∃ cs : List Comment, Holds st.localStorage cs ∧
    st.comments = (cs.filter fun c => decide (c.post_id = mockNewsData.featured.id)).map Comment.toJS

/-- The property read `comment.created_at` of a string-valued property. -/
def createdAt : JSValue → JSString
  | .obj props =>
    match findProp (lit "created_at") props with
    | some (.str s) => s
    | _ => []
  | _ => []

/-- Lexicographic `≤` on code units: the order of ISO 8601 timestamps as
written by `toISOString`. -/
def leString : JSString → JSString → Bool
  | [], _ => true
  | _ :: _, [] => false
  | a :: s, b :: t => a < b || (a == b && leString s t)

/-- A state before the first `loadNews`: no post selected, no comments, and
the given item `'comments'`. -/
def initialState (storage : Option JSString) : AppState :=
  { currentPost := none, comments := [], localStorage := storage, phase := Phase.loading }

/-- A remote client whose calls all report an error in their reply. -/
def failingClient : SupabaseClient :=
  { insert := fun _ => .ok { data := JSValue.null, error := some JSError.remoteError },
    select := fun _ => .ok { data := none, error := some JSError.remoteError } }

/-- Sample record on the featured post, created on 2 January. -/
def sampleLate : Comment :=
  { id := lit "c-1", post_id := lit "news-1", author_name := lit "Ann",
    content := lit "I agree", created_at := lit "2024-01-02T00:00:00.000Z",
    ai_response := lit "Thanks" }

/-- Sample record on the featured post, created on 1 January. -/
def sampleEarly : Comment :=
  { id := lit "c-2", post_id := lit "news-1", author_name := lit "Bob",
    content := lit "Why \"now\"?", created_at := lit "2024-01-01T00:00:00.000Z",
    ai_response := lit "Great question!" }

/-- Sample record on another post. -/
def sampleOther : Comment :=
  { id := lit "c-3", post_id := lit "news-2", author_name := lit "Cy",
    content := lit "hello", created_at := lit "2024-01-03T00:00:00.000Z",
    ai_response := lit "Thanks" }

/-- Sample submission with valid fields. -/
def sampleSubmit : SubmitInput :=
  { name := lit "  Ann ", text := lit " I DISAGREE, why? ", uuid := lit "c-9",
    now := lit "2024-01-04T00:00:00.000Z", rnd := 1 / 2, setItemOk := true }

/-- Sample submission whose author name is only white space. -/
def sampleBlank : SubmitInput :=
  { name := lit " \t ", text := lit "hello", uuid := lit "c-10",
    now := lit "2024-01-05T00:00:00.000Z", rnd := 0, setItemOk := true }

/-- Each record's `created_at` is at most that of the next one. -/
def ascendingByCreatedAt : List JSValue → Bool
  | [] => true
  | [_] => true
  | a :: b :: more => leString (createdAt a) (createdAt b) && ascendingByCreatedAt (b :: more)

/-! ## Response generator: lemmas -/

theorem startsWith_iff (s k : JSString) : startsWith s k = true ↔ k <+: s := by
  induction k generalizing s with
  | nil => simp [startsWith]
  | cons d k ih =>
    cases s with
    | nil => simp [startsWith]
    | cons c s =>
      simp only [startsWith, Bool.and_eq_true, beq_iff_eq, ih, List.cons_prefix_cons]
      constructor
      · rintro ⟨h, h2⟩; exact ⟨h.symm, h2⟩
      · rintro ⟨h, h2⟩; exact ⟨h.symm, h2⟩

/-- The model of `includes` is substring containment. -/
theorem includes_iff (s k : JSString) : includes s k = true ↔ k <:+: s := by
  induction s with
  | nil =>
    simp only [includes, startsWith_iff, List.prefix_nil, List.infix_nil]
  | cons c s ih =>
    simp only [includes, Bool.or_eq_true, startsWith_iff, ih, List.infix_cons_iff]

theorem templateMatches_iff (lower : JSString) (t : Template) :
    templateMatches lower t = true ↔ ∃ k ∈ t.keywords, k <:+: lower := by
  simp [templateMatches, List.any_eq_true, includes_iff]

theorem templateMatches_eq_false_iff (lower : JSString) (t : Template) :
    templateMatches lower t = false ↔ ∀ k ∈ t.keywords, ¬ k <:+: lower := by
  rw [← Bool.not_eq_true, templateMatches_iff]
  simp

/-- Under the contract of `Math.random`, the drawn index is inside a non-empty
array, so the element read is defined and belongs to the array. -/
theorem pickRandom_mem (rnd : ℚ) (h0 : 0 ≤ rnd) (h1 : rnd < 1) (responses : List JSString)
    (hne : responses ≠ []) : ∃ s, pickRandom rnd responses = some s ∧ s ∈ responses := by
  have hlen : 0 < responses.length := List.length_pos.mpr hne
  have hlenq : (0 : ℚ) < (responses.length : ℚ) := by exact_mod_cast hlen
  have hnonneg : 0 ≤ Int.floor (rnd * (responses.length : ℚ)) :=
    Int.floor_nonneg.mpr (mul_nonneg h0 hlenq.le)
  have hlt : Int.floor (rnd * (responses.length : ℚ)) < (responses.length : Int) := by
    rw [Int.floor_lt]
    have : rnd * (responses.length : ℚ) < 1 * (responses.length : ℚ) :=
      mul_lt_mul_of_pos_right h1 hlenq
    simpa using this
  have hidx : (Int.floor (rnd * (responses.length : ℚ))).toNat < responses.length := by
    omega
  refine ⟨responses.get ⟨_, hidx⟩, ?_, List.get_mem _ _ _⟩
  simp only [pickRandom, hnonneg, if_true]
  exact List.get?_eq_get hidx

theorem generateLoop_first_match (lower : JSString) (rnd : ℚ) (pre : List Template)
    (t : Template) (post : List Template)
    (hpre : ∀ p ∈ pre, templateMatches lower p = false)
    (ht : templateMatches lower t = true) :
    generateLoop lower rnd (pre ++ t :: post) = pickRandom rnd t.responses := by
  induction pre with
  | nil => simp [generateLoop, ht]
  | cons p pre ih =>
    have hp : templateMatches lower p = false := hpre p (List.mem_cons_self _ _)
    simp only [List.cons_append, generateLoop, hp, Bool.false_eq_true, if_false]
    exact ih (fun q hq => hpre q (List.mem_cons_of_mem _ hq))

theorem generateLoop_no_match (lower : JSString) (rnd : ℚ) (ts : List Template)
    (hts : ∀ p ∈ ts, templateMatches lower p = false) :
    generateLoop lower rnd ts = pickRandom rnd defaultResponses := by
  induction ts with
  | nil => simp [generateLoop]
  | cons p ts ih =>
    have hp : templateMatches lower p = false := hts p (List.mem_cons_self _ _)
    simp only [generateLoop, hp, Bool.false_eq_true, if_false]
    exact ih (fun q hq => hts q (List.mem_cons_of_mem _ hq))

theorem template_responses_ne_nil : ∀ t ∈ aiResponseTemplates, t.responses ≠ [] := by
  decide

theorem default_not_template :
    ∀ s ∈ defaultResponses, ∀ t ∈ aiResponseTemplates, s ∉ t.responses := by
  decide

/-- ASCII lower-casing keeps every run of lower-case ASCII letters in place. -/
theorem asciiLower_keeps_lowercase (s k : JSString) (hk : ∀ c ∈ k, 97 ≤ c ∧ c ≤ 122)
    (h : k <:+: s) : k <:+: asciiLower s := by
  have hmap : asciiLower k = k := by
    unfold asciiLower
    conv_rhs => rw [← List.map_id k]
    apply List.map_congr_left
    intro c hc
    have := hk c hc
    have hnot : ¬ (65 ≤ c ∧ c ≤ 90) := by omega
    simp [hnot]
  obtain ⟨a, b, rfl⟩ := h
  refine ⟨asciiLower a, asciiLower b, ?_⟩
  conv_lhs => rw [← hmap]
  simp [asciiLower]

/-! ## Response generator: claims -/

/-- C1. First match wins: under the contract of `Math.random`, if some template
has a keyword that is a substring of the lower-cased text, the result of
`generateAIResponse` is a response of the first such template in list order,
whatever later templates match; in particular a lower-cased text containing one
of the positive keywords ("agree", "great", ...) gets a positive response. -/
theorem generateAIResponse_first_match (toLowerCase : JSString → JSString) (rnd : ℚ)
    (h0 : 0 ≤ rnd) (h1 : rnd < 1) (commentText : JSString) :
    (∀ (pre : List Template) (t : Template) (post : List Template),
      aiResponseTemplates = pre ++ t :: post →
      (∀ p ∈ pre, ∀ k ∈ p.keywords, ¬ k <:+: toLowerCase commentText) →
      (∃ k ∈ t.keywords, k <:+: toLowerCase commentText) →
      ∃ s, generateAIResponse toLowerCase rnd commentText = some s ∧ s ∈ t.responses)
    ∧ (∀ k ∈ [lit "agree", lit "great", lit "amazing", lit "awesome", lit "love"],
        k <:+: toLowerCase commentText →
        ∃ s, generateAIResponse toLowerCase rnd commentText = some s ∧
          s ∈ templatePositive.responses)
    ∧ ((∀ s k : JSString, (∀ c ∈ k, 97 ≤ c ∧ c ≤ 122) → k <:+: s → k <:+: toLowerCase s) →
        ∀ k ∈ [lit "agree", lit "great", lit "amazing", lit "awesome", lit "love"],
        k <:+: commentText →
        ∃ s, generateAIResponse toLowerCase rnd commentText = some s ∧
          s ∈ templatePositive.responses) := by
  have general : ∀ (pre : List Template) (t : Template) (post : List Template),
      aiResponseTemplates = pre ++ t :: post →
      (∀ p ∈ pre, ∀ k ∈ p.keywords, ¬ k <:+: toLowerCase commentText) →
      (∃ k ∈ t.keywords, k <:+: toLowerCase commentText) →
      ∃ s, generateAIResponse toLowerCase rnd commentText = some s ∧ s ∈ t.responses := by
    intro pre t post hsplit hpre ht
    have hmem : t ∈ aiResponseTemplates := by rw [hsplit]; simp
    have hloop := generateLoop_first_match (toLowerCase commentText) rnd pre t post
      (fun p hp => (templateMatches_eq_false_iff _ _).mpr (hpre p hp))
      ((templateMatches_iff _ _).mpr ht)
    obtain ⟨s, hs, hsmem⟩ := pickRandom_mem rnd h0 h1 t.responses
      (template_responses_ne_nil t hmem)
    exact ⟨s, by simp only [generateAIResponse, hsplit, hloop, hs], hsmem⟩
  have positive : ∀ k ∈ [lit "agree", lit "great", lit "amazing", lit "awesome", lit "love"],
      k <:+: toLowerCase commentText →
      ∃ s, generateAIResponse toLowerCase rnd commentText = some s ∧
        s ∈ templatePositive.responses := by
    intro k hk hsub
    exact general [] templatePositive [templateNegative, templateQuestion, templateConcern] rfl
      (by simp) ⟨k, hk, hsub⟩
  refine ⟨general, positive, ?_⟩
  intro hlower k hk hsub
  have hletters : ∀ k ∈ [lit "agree", lit "great", lit "amazing", lit "awesome", lit "love"],
      ∀ c ∈ k, 97 ≤ c ∧ c ≤ 122 := by decide
  exact positive k hk (hlower commentText k (hletters k hk) hsub)

/-- C1 at a concrete input: "My disagreement: why is this a PROBLEM?" contains
"agree" inside "disagreement" (and keywords of templates 2, 3 and 4), and gets
a positive response. -/
theorem generateAIResponse_first_match_witness :
    ∃ s, generateAIResponse asciiLower (1/2)
        (lit "My disagreement: why is this a PROBLEM?") = some s ∧
      s ∈ templatePositive.responses :=
  (generateAIResponse_first_match asciiLower (1/2) (by norm_num) (by norm_num)
    (lit "My disagreement: why is this a PROBLEM?")).2.2 asciiLower_keeps_lowercase
    (lit "agree") (by decide) ((includes_iff _ _).mp (by decide))

/-- C2. If the lower-cased text contains no keyword of any template then, under
the contract of `Math.random`, `generateAIResponse` returns one of the three
default responses: a defined value that is no template response. -/
theorem generateAIResponse_default (toLowerCase : JSString → JSString) (rnd : ℚ)
    (h0 : 0 ≤ rnd) (h1 : rnd < 1) (commentText : JSString)
    (hnone : ∀ t ∈ aiResponseTemplates, ∀ k ∈ t.keywords, ¬ k <:+: toLowerCase commentText) :
    ∃ s, generateAIResponse toLowerCase rnd commentText = some s ∧ s ∈ defaultResponses ∧
      defaultResponses.length = 3 ∧ ∀ t ∈ aiResponseTemplates, s ∉ t.responses := by
  have hloop := generateLoop_no_match (toLowerCase commentText) rnd aiResponseTemplates
    (fun p hp => (templateMatches_eq_false_iff _ _).mpr (hnone p hp))
  obtain ⟨s, hs, hsmem⟩ := pickRandom_mem rnd h0 h1 defaultResponses (by decide)
  exact ⟨s, by simp only [generateAIResponse, hloop, hs], hsmem, rfl,
    default_not_template s hsmem⟩

/-- C2 at a concrete input: "Hello World" matches no keyword. -/
theorem generateAIResponse_default_witness :
    ∃ s, generateAIResponse asciiLower (1/3) (lit "Hello World") = some s ∧
      s ∈ defaultResponses ∧ defaultResponses.length = 3 ∧
      ∀ t ∈ aiResponseTemplates, s ∉ t.responses :=
  generateAIResponse_default asciiLower (1/3) (by norm_num) (by norm_num) (lit "Hello World")
    (fun t ht => (templateMatches_eq_false_iff _ _).mp
      ((by decide : ∀ p ∈ aiResponseTemplates,
        templateMatches (asciiLower (lit "Hello World")) p = false) t ht))

/-! ## JSON: serialising then parsing -/

theorem skipWs_cons_of_not_ws (c : Nat) (rest : JSString) (h : isJSONWhitespace c = false) :
    skipWs (c :: rest) = c :: rest := by
  simp [skipWs, h]

theorem hexVal_hexDigit (n : Nat) (h : n < 16) : hexVal (hexDigit n) = some n := by
  interval_cases n <;> rfl

theorem parseStringBody_quote (rest : JSString) :
    parseStringBody (0x22 :: rest) = some ([], rest) := by
  rw [parseStringBody.eq_def]; simp

theorem parseStringBody_literal (c : Nat) (tail : JSString) (h1 : c ≠ 0x22) (h2 : c ≠ 0x5C)
    (h3 : ¬ c < 0x20) :
    parseStringBody (c :: tail) = (parseStringBody tail).map fun (s, r) => (c :: s, r) := by
  rw [parseStringBody.eq_def]; simp [h1, h2, h3]

theorem parseStringBody_escape (e u : Nat) (tail : JSString) (he : e ≠ 0x75)
    (hu : unescape e = some u) :
    parseStringBody (0x5C :: e :: tail) = (parseStringBody tail).map fun (s, r) => (u :: s, r) := by
  rw [parseStringBody.eq_def]; simp [he, hu]

theorem parseStringBody_unicodeEscape (c : Nat) (hc : c < 65536) (tail : JSString) :
    parseStringBody (unicodeEscape c ++ tail)
      = (parseStringBody tail).map fun (s, r) => (c :: s, r) := by
  have e1 := hexVal_hexDigit (c / 4096 % 16) (Nat.mod_lt _ (by norm_num))
  have e2 := hexVal_hexDigit (c / 256 % 16) (Nat.mod_lt _ (by norm_num))
  have e3 := hexVal_hexDigit (c / 16 % 16) (Nat.mod_lt _ (by norm_num))
  have e4 := hexVal_hexDigit (c % 16) (Nat.mod_lt _ (by norm_num))
  have hsum : c / 4096 % 16 * 4096 + c / 256 % 16 * 256 + c / 16 % 16 * 16 + c % 16 = c := by
    omega
  rw [parseStringBody.eq_def]
  simp [unicodeEscape, e1, e2, e3, e4, hsum]

theorem parseStringBody_quoteUnit (c : Nat) (tail : JSString) :
    parseStringBody (quoteUnit c ++ tail)
      = (parseStringBody tail).map fun (s, r) => (c :: s, r) := by
  unfold quoteUnit
  split_ifs with h1 h2 h3 h4 h5 h6 h7 h8
  · subst h1; exact parseStringBody_escape _ _ _ (by decide) (by decide)
  · subst h2; exact parseStringBody_escape _ _ _ (by decide) (by decide)
  · subst h3; exact parseStringBody_escape _ _ _ (by decide) (by decide)
  · subst h4; exact parseStringBody_escape _ _ _ (by decide) (by decide)
  · subst h5; exact parseStringBody_escape _ _ _ (by decide) (by decide)
  · subst h6; exact parseStringBody_escape _ _ _ (by decide) (by decide)
  · subst h7; exact parseStringBody_escape _ _ _ (by decide) (by decide)
  · apply parseStringBody_unicodeEscape
    simp only [isLeadSurrogate, isTrailSurrogate, Bool.or_eq_true, decide_eq_true_eq,
      Bool.and_eq_true] at h8
    omega
  · simp only [isLeadSurrogate, isTrailSurrogate, Bool.or_eq_true, decide_eq_true_eq,
      Bool.and_eq_true, not_or] at h8
    exact parseStringBody_literal c tail h6 h7 h8.1.1

/-- Parsing the quoted form of a string gives the string back. -/
theorem parseStringBody_quoteUnits (s : JSString) (rest : JSString) :
    parseStringBody (quoteUnits s ++ 0x22 :: rest) = some (s, rest) := by
  induction s using quoteUnits.induct with
  | case1 => simp [quoteUnits, parseStringBody_quote]
  | case2 c =>
    simp [quoteUnits, parseStringBody_quoteUnit, parseStringBody_quote]
  | case3 c d more hpair ih =>
    simp only [isLeadSurrogate, isTrailSurrogate, Bool.and_eq_true, decide_eq_true_eq] at hpair
    have hc := parseStringBody_literal c (d :: (quoteUnits more ++ 0x22 :: rest))
      (by omega) (by omega) (by omega)
    have hd := parseStringBody_literal d (quoteUnits more ++ 0x22 :: rest)
      (by omega) (by omega) (by omega)
    have hq : quoteUnits (c :: d :: more) = c :: d :: quoteUnits more := by
      simp [quoteUnits, isLeadSurrogate, isTrailSurrogate, hpair]
    rw [hq]
    simp only [List.cons_append, hc, hd, ih, Option.map_some']
  | case4 c d more hpair ih =>
    have hq : quoteUnits (c :: d :: more) = quoteUnit c ++ quoteUnits (d :: more) := by
      simp only [quoteUnits, hpair, if_false, Bool.false_eq_true]
    rw [hq, List.append_assoc, parseStringBody_quoteUnit, ih]
    rfl

theorem parseValue_string (fuel : Nat) (s rest : JSString) :
    parseValue (fuel + 1) (quoteJSONString s ++ rest) = some (JSValue.str s, rest) := by
  have h : quoteJSONString s ++ rest = 0x22 :: (quoteUnits s ++ 0x22 :: rest) := by
    simp [quoteJSONString]
  rw [h, parseValue, skipWs_cons_of_not_ws _ _ (by decide)]
  simp [parseStringBody_quoteUnits]

/-- One member `"key":"value"` of an object is read back, and the parser goes
on with what follows it. -/
theorem parseMembers_member (fuel : Nat) (k v tail : JSString) :
    parseMembers (fuel + 2) (quoteJSONString k ++ 0x3A :: (quoteJSONString v ++ tail))
      = match skipWs tail with
        | [] => none
        | e :: rest5 =>
          if e = 0x2C then
            (parseMembers (fuel + 1) rest5).map fun (ps, r) => ((k, JSValue.str v) :: ps, r)
          else if e = 0x7D then some ([(k, JSValue.str v)], rest5)
          else none := by
  have h : quoteJSONString k ++ 0x3A :: (quoteJSONString v ++ tail)
      = 0x22 :: (quoteUnits k ++ 0x22 :: 0x3A :: (quoteJSONString v ++ tail)) := by
    simp [quoteJSONString]
  rw [h, parseMembers, skipWs_cons_of_not_ws _ _ (by decide)]
  simp only [if_true, parseStringBody_quoteUnits, skipWs_cons_of_not_ws 0x3A _ (by decide),
    parseValue_string]

theorem memberTexts_strProps_cons (k v : JSString) (more : List (JSString × JSString)) :
    memberTexts (strProps ((k, v) :: more))
      = (quoteJSONString k ++ 0x3A :: quoteJSONString v) :: memberTexts (strProps more) := by
  simp [strProps, memberTexts, stringify]

theorem joinComma_memberTexts_head (kv : JSString × JSString)
    (more : List (JSString × JSString)) :
    ∃ t, joinComma (memberTexts (strProps (kv :: more))) = 0x22 :: t := by
  obtain ⟨k, v⟩ := kv
  rw [memberTexts_strProps_cons]
  cases h : memberTexts (strProps more) with
  | nil => exact ⟨_, by simp [joinComma, quoteJSONString]; rfl⟩
  | cons y ys => exact ⟨_, by simp [joinComma, quoteJSONString]; rfl⟩

/-- The members of an object with string values are read back. -/
theorem parseMembers_strProps (kvs : List (JSString × JSString)) (hne : kvs ≠ [])
    (fuel : Nat) (hf : kvs.length + 1 ≤ fuel) (rest : JSString) :
    parseMembers fuel (joinComma (memberTexts (strProps kvs)) ++ 0x7D :: rest)
      = some (strProps kvs, rest) := by
  induction kvs generalizing fuel with
  | nil => exact absurd rfl hne
  | cons kv more ih =>
    obtain ⟨k, v⟩ := kv
    obtain ⟨f, rfl⟩ : ∃ f, fuel = f + 2 := ⟨fuel - 2, by simp at hf; omega⟩
    rw [memberTexts_strProps_cons]
    cases more with
    | nil =>
      have h : joinComma [quoteJSONString k ++ 0x3A :: quoteJSONString v] ++ 0x7D :: rest
          = quoteJSONString k ++ 0x3A :: (quoteJSONString v ++ 0x7D :: rest) := by
        simp [joinComma]
      simp only [strProps, List.map_nil, memberTexts, h, parseMembers_member,
        skipWs_cons_of_not_ws 0x7D _ (by decide)]
      simp
    | cons kv2 more2 =>
      obtain ⟨k2, v2⟩ := kv2
      have ih2 := ih (by simp) (f + 1) (by simp at hf ⊢; omega)
      rw [memberTexts_strProps_cons] at ih2 ⊢
      have h : joinComma ((quoteJSONString k ++ 0x3A :: quoteJSONString v) ::
            (quoteJSONString k2 ++ 0x3A :: quoteJSONString v2) :: memberTexts (strProps more2))
            ++ 0x7D :: rest
          = quoteJSONString k ++ 0x3A :: (quoteJSONString v ++ 0x2C ::
              (joinComma ((quoteJSONString k2 ++ 0x3A :: quoteJSONString v2) ::
                memberTexts (strProps more2)) ++ 0x7D :: rest)) := by
        simp [joinComma]
      rw [h, parseMembers_member, skipWs_cons_of_not_ws 0x2C _ (by decide)]
      simp only [if_true, ih2, Option.map_some']
      simp [strProps]

/-- A non-empty object with string values is read back. -/
theorem parseValue_strProps (kvs : List (JSString × JSString)) (hne : kvs ≠ [])
    (fuel : Nat) (hf : kvs.length + 2 ≤ fuel) (rest : JSString) :
    parseValue fuel (stringify (JSValue.obj (strProps kvs)) ++ rest)
      = some (JSValue.obj (strProps kvs), rest) := by
  obtain ⟨f, rfl⟩ : ∃ f, fuel = f + 1 := ⟨fuel - 1, by omega⟩
  obtain ⟨kv, more, rfl⟩ := List.exists_cons_of_ne_nil hne
  obtain ⟨t, ht⟩ := joinComma_memberTexts_head kv more
  have hm := parseMembers_strProps (kv :: more) hne f (by omega) rest
  have h : stringify (JSValue.obj (strProps (kv :: more))) ++ rest
      = 0x7B :: (joinComma (memberTexts (strProps (kv :: more))) ++ 0x7D :: rest) := by
    simp [stringify]
  rw [h, parseValue, skipWs_cons_of_not_ws _ _ (by decide)]
  rw [ht] at hm ⊢
  simp only [List.cons_append] at hm ⊢
  rw [skipWs_cons_of_not_ws _ _ (by decide)]
  simp [hm]

theorem Comment.toJS_eq (c : Comment) : c.toJS = JSValue.obj (strProps c.fields) := rfl

/-- A Comment Record is read back from its JSON text. -/
theorem parseValue_record (c : Comment) (fuel : Nat) (hf : 8 ≤ fuel) (rest : JSString) :
    parseValue fuel (stringify c.toJS ++ rest) = some (c.toJS, rest) := by
  rw [Comment.toJS_eq]
  exact parseValue_strProps c.fields (by simp [Comment.fields]) fuel
    (by simp [Comment.fields]; omega) rest

theorem stringify_record_head (c : Comment) : ∃ t, stringify c.toJS = 0x7B :: t :=
  ⟨_, by simp [Comment.toJS, stringify]; rfl⟩

theorem joinComma_itemTexts_head (c : Comment) (more : List Comment) :
    ∃ t, joinComma (itemTexts ((c :: more).map Comment.toJS)) = 0x7B :: t := by
  obtain ⟨t, ht⟩ := stringify_record_head c
  cases more with
  | nil => exact ⟨t, by simp [itemTexts, joinComma, ht]⟩
  | cons d more2 => exact ⟨_, by simp [itemTexts, joinComma, ht]; rfl⟩

/-- The elements of an array of Comment Records are read back. -/
theorem parseElements_records (cs : List Comment) (hne : cs ≠ []) (fuel : Nat)
    (hf : cs.length + 8 ≤ fuel) (rest : JSString) :
    parseElements fuel (joinComma (itemTexts (cs.map Comment.toJS)) ++ 0x5D :: rest)
      = some (cs.map Comment.toJS, rest) := by
  induction cs generalizing fuel with
  | nil => exact absurd rfl hne
  | cons c more ih =>
    obtain ⟨f, rfl⟩ : ∃ f, fuel = f + 1 := ⟨fuel - 1, by simp at hf; omega⟩
    cases more with
    | nil =>
      have h : joinComma (itemTexts ([c].map Comment.toJS)) ++ 0x5D :: rest
          = stringify c.toJS ++ 0x5D :: rest := by
        simp [itemTexts, joinComma]
      rw [h, parseElements, parseValue_record c f (by simp at hf; omega)]
      simp [skipWs_cons_of_not_ws 0x5D _ (by decide)]
    | cons d more2 =>
      have ih2 := ih (by simp) f (by simp at hf ⊢; omega)
      have h : joinComma (itemTexts ((c :: d :: more2).map Comment.toJS)) ++ 0x5D :: rest
          = stringify c.toJS ++ 0x2C ::
              (joinComma (itemTexts ((d :: more2).map Comment.toJS)) ++ 0x5D :: rest) := by
        simp [itemTexts, joinComma]
      rw [h, parseElements, parseValue_record c f (by simp at hf; omega)]
      simp only [List.map_cons] at ih2
      simp [skipWs_cons_of_not_ws 0x2C _ (by decide), ih2]

theorem length_stringify_record (c : Comment) : 8 ≤ (stringify c.toJS).length := by
  simp [Comment.toJS, stringify, memberTexts, joinComma, quoteJSONString]
  omega

theorem length_joinComma_records (cs : List Comment) :
    8 * cs.length ≤ (joinComma (itemTexts (cs.map Comment.toJS))).length := by
  induction cs with
  | nil => simp
  | cons c more ih =>
    have hc := length_stringify_record c
    cases more with
    | nil => simpa [itemTexts, joinComma] using hc
    | cons d more2 =>
      simp only [List.map_cons, itemTexts, joinComma, List.length_append, List.length_cons]
        at ih ⊢
      omega

/-- Serialising an array of Comment Records and parsing the text gives the
array back. -/
theorem parse_stringify_records (cs : List Comment) :
    JSON.parse (stringify (JSValue.arr (cs.map Comment.toJS)))
      = .ok (JSValue.arr (cs.map Comment.toJS)) := by
  cases cs with
  | nil => rfl
  | cons c more =>
    obtain ⟨t, ht⟩ := joinComma_itemTexts_head c more
    have hlen := length_joinComma_records (c :: more)
    have htext : stringify (JSValue.arr ((c :: more).map Comment.toJS))
        = 0x5B :: (joinComma (itemTexts ((c :: more).map Comment.toJS)) ++ 0x5D :: []) := by
      simp [stringify]
    have hfuel : (c :: more).length + 8 ≤
        2 * (stringify (JSValue.arr ((c :: more).map Comment.toJS))).length + 1 := by
      rw [htext]
      simp only [List.length_cons, List.length_append, List.length_nil] at hlen ⊢
      omega
    generalize hN : 2 * (stringify (JSValue.arr ((c :: more).map Comment.toJS))).length + 1 = N
      at hfuel
    have hel := parseElements_records (c :: more) (by simp) N hfuel []
    have hval : parseValue (N + 1) (stringify (JSValue.arr ((c :: more).map Comment.toJS)))
        = some (JSValue.arr ((c :: more).map Comment.toJS), []) := by
      rw [ht] at hel
      simp only [List.cons_append] at hel
      rw [parseValue, htext, ht]
      simp only [List.cons_append, skipWs_cons_of_not_ws 0x5B _ (by decide),
        skipWs_cons_of_not_ws 0x7B _ (by decide)]
      simp [hel]
    have hN2 : 2 * (stringify (JSValue.arr ((c :: more).map Comment.toJS))).length + 2 = N + 1 := by
      omega
    unfold JSON.parse
    rw [hN2, hval]
    simp [skipWs]

/-! ## Comment store: lemmas -/

theorem holds_none : Holds none [] := rfl

theorem holds_empty_array : Holds (some (lit "[]")) [] := rfl

theorem stringify_arr_ne_nil (vs : List JSValue) : stringify (JSValue.arr vs) ≠ [] := by
  simp [stringify]

theorem holds_stringify (cs : List Comment) :
    Holds (some (stringify (JSValue.arr (cs.map Comment.toJS)))) cs := by
  simp only [Holds, getItemOrDefault, stringify_arr_ne_nil, if_false]
  exact parse_stringify_records cs

/-- On the local store an accepted write returns the comment and stores the
old array followed by it. -/
theorem saveComment_local_accept (storage : Option JSString) (cs : List Comment)
    (h : Holds storage cs) (comment : JSValue) :
    saveComment none true storage comment
      = (.ok comment, some (stringify (JSValue.arr (cs.map Comment.toJS ++ [comment])))) := by
  simp only [saveComment, Holds] at h ⊢
  rw [h]
  rfl

theorem saveComment_local_reject (storage : Option JSString) (cs : List Comment)
    (h : Holds storage cs) (comment : JSValue) :
    saveComment none false storage comment = (.error .quotaExceeded, storage) := by
  simp only [saveComment, Holds] at h ⊢
  rw [h]
  rfl

theorem holds_after_save (storage : Option JSString) (cs : List Comment)
    (h : Holds storage cs) (c : Comment) :
    Holds (saveComment none true storage c.toJS).2 (cs ++ [c]) := by
  rw [saveComment_local_accept storage cs h]
  have := holds_stringify (cs ++ [c])
  simpa using this

theorem holds_saveAll (cs : List Comment) (storage : Option JSString) (cs0 : List Comment)
    (h : Holds storage cs0) : Holds (saveAll (cs.map Comment.toJS) storage) (cs0 ++ cs) := by
  induction cs generalizing storage cs0 with
  | nil => simpa [saveAll] using h
  | cons c more ih =>
    have := ih _ _ (holds_after_save storage cs0 h c)
    simpa [saveAll] using this

theorem readPostId_record (c : Comment) : readPostId c.toJS = .ok (JSValue.str c.post_id) := by
  have h1 : ¬ lit "ai_response" = lit "post_id" := by decide
  have h2 : ¬ lit "created_at" = lit "post_id" := by decide
  have h3 : ¬ lit "content" = lit "post_id" := by decide
  have h4 : ¬ lit "author_name" = lit "post_id" := by decide
  simp [readPostId, Comment.toJS, findProp, h1, h2, h3, h4]

theorem createdAt_record (c : Comment) : createdAt c.toJS = c.created_at := by
  have h1 : ¬ lit "ai_response" = lit "created_at" := by decide
  simp [createdAt, Comment.toJS, findProp, h1]

theorem filterByPost_records (postId : JSString) (cs : List Comment) :
    filterByPost postId (cs.map Comment.toJS)
      = .ok ((cs.filter fun c => decide (c.post_id = postId)).map Comment.toJS) := by
  induction cs with
  | nil => rfl
  | cons c more ih =>
    simp only [List.map_cons, filterByPost, readPostId_record, ih, strictEqualsString,
      List.filter_cons]
    by_cases hc : c.post_id = postId <;> simp [hc]

/-- On the local store `loadComments` returns the stored records of the post,
in stored order, and does not write. -/
theorem loadComments_local (storage : Option JSString) (cs : List Comment)
    (h : Holds storage cs) (postId : JSString) :
    loadComments none storage postId
      = (.ok ((cs.filter fun c => decide (c.post_id = postId)).map Comment.toJS), storage) := by
  simp only [loadComments, Holds] at h ⊢
  rw [h]
  simp only [filterByPost_records]

/-! ## Controller: lemmas -/

/-- `trim` leaves nothing exactly when every code unit is white space. -/
theorem trim_eq_nil_iff (s : JSString) : trim s = [] ↔ ∀ c ∈ s, isTrimmable c = true := by
  unfold trim
  rw [List.reverse_eq_nil_iff, List.dropWhile_eq_nil_iff]
  constructor
  · intro h
    have hnil : s.dropWhile isTrimmable = [] := by
      by_contra hne
      have hhead := List.head_dropWhile_not isTrimmable s hne
      have hmem : (s.dropWhile isTrimmable).head hne ∈ (s.dropWhile isTrimmable).reverse :=
        List.mem_reverse.mpr (List.head_mem hne)
      rw [h _ hmem] at hhead
      exact absurd hhead (by simp)
    exact List.dropWhile_eq_nil_iff.mp hnil
  · intro h x hx
    have hnil : s.dropWhile isTrimmable = [] := List.dropWhile_eq_nil_iff.mpr h
    rw [hnil] at hx
    simp at hx

theorem generateLoop_some (lower : JSString) (rnd : ℚ) (h0 : 0 ≤ rnd) (h1 : rnd < 1)
    (ts : List Template) (hts : ∀ t ∈ ts, t.responses ≠ [] ∧ ∀ s ∈ t.responses, s ≠ []) :
    ∃ s, generateLoop lower rnd ts = some s ∧ s ≠ [] := by
  induction ts with
  | nil =>
    obtain ⟨s, hs, hmem⟩ := pickRandom_mem rnd h0 h1 defaultResponses (by decide)
    exact ⟨s, by simpa [generateLoop] using hs,
      (by decide : ∀ s ∈ defaultResponses, s ≠ []) s hmem⟩
  | cons t more ih =>
    by_cases hm : templateMatches lower t = true
    · obtain ⟨s, hs, hmem⟩ := pickRandom_mem rnd h0 h1 t.responses
        (hts t (List.mem_cons_self _ _)).1
      exact ⟨s, by simpa [generateLoop, hm] using hs,
        (hts t (List.mem_cons_self _ _)).2 s hmem⟩
    · obtain ⟨s, hs, hne⟩ := ih (fun q hq => hts q (List.mem_cons_of_mem _ hq))
      exact ⟨s, by simpa [generateLoop, hm] using hs, hne⟩

/-- Under the contract of `Math.random` the generated response is a defined,
non-empty string. -/
theorem generateAIResponse_some (toLowerCase : JSString → JSString) (rnd : ℚ)
    (h0 : 0 ≤ rnd) (h1 : rnd < 1) (commentText : JSString) :
    ∃ s, generateAIResponse toLowerCase rnd commentText = some s ∧ s ≠ [] :=
  generateLoop_some (toLowerCase commentText) rnd h0 h1 aiResponseTemplates (by decide)

/-- Under the contract of `Math.random` the comment object is a Comment Record. -/
theorem buildComment_record (toLowerCase : JSString → JSString) (post : Post)
    (name text : JSString) (inp : SubmitInput) (h0 : 0 ≤ inp.rnd) (h1 : inp.rnd < 1) :
    ∃ response, response ≠ [] ∧
      buildComment toLowerCase post name text inp
        = Comment.toJS { id := inp.uuid, post_id := post.id, author_name := name,
                         content := text, created_at := inp.now, ai_response := response } := by
  obtain ⟨s, hs, hne⟩ := generateAIResponse_some toLowerCase inp.rnd h0 h1 text
  exact ⟨s, hne, by simp [buildComment, Comment.toJS, hs]⟩

theorem handleCommentSubmit_invalid (toLowerCase : JSString → JSString)
    (supabase : Option SupabaseClient) (inp : SubmitInput) (st : AppState)
    (h : trim inp.name = [] ∨ trim inp.text = []) :
    handleCommentSubmit toLowerCase supabase inp st
      = (st, [Event.toast (lit "Please fill in all fields") (lit "error")]) := by
  simp only [handleCommentSubmit, h, if_true]

theorem handleCommentSubmit_ok (toLowerCase : JSString → JSString)
    (supabase : Option SupabaseClient) (inp : SubmitInput) (st : AppState) (post : Post)
    (hpost : st.currentPost = some post) (hname : trim inp.name ≠ [])
    (htext : trim inp.text ≠ []) (v : JSValue) (storage : Option JSString)
    (hsave : saveComment supabase inp.setItemOk st.localStorage
      (buildComment toLowerCase post (trim inp.name) (trim inp.text) inp) = (.ok v, storage)) :
    (handleCommentSubmit toLowerCase supabase inp st).1
      = { st with localStorage := storage,
                  comments := st.comments ++
                    [buildComment toLowerCase post (trim inp.name) (trim inp.text) inp] } := by
  simp only [handleCommentSubmit, displayComments, hname, htext, or_self, if_false, hpost, hsave]

theorem handleCommentSubmit_error (toLowerCase : JSString → JSString)
    (supabase : Option SupabaseClient) (inp : SubmitInput) (st : AppState) (post : Post)
    (hpost : st.currentPost = some post) (hname : trim inp.name ≠ [])
    (htext : trim inp.text ≠ []) (e : JSError) (storage : Option JSString)
    (hsave : saveComment supabase inp.setItemOk st.localStorage
      (buildComment toLowerCase post (trim inp.name) (trim inp.text) inp) = (.error e, storage)) :
    (handleCommentSubmit toLowerCase supabase inp st).1 = { st with localStorage := storage } := by
  simp only [handleCommentSubmit, hname, htext, or_self, if_false, hpost, hsave]

theorem consistent_loadNews (st0 : AppState) (cs0 : List Comment)
    (h : Holds st0.localStorage cs0) : Consistent (loadNews none st0).1 := by
  simp only [loadNews, displayFeaturedPost, displayComments,
    loadComments_local st0.localStorage cs0 h]
  exact ⟨rfl, cs0, h, rfl⟩

theorem consistent_submit (toLowerCase : JSString → JSString) (inp : SubmitInput)
    (h0 : 0 ≤ inp.rnd) (h1 : inp.rnd < 1) (st : AppState) (h : Consistent st) :
    Consistent (handleCommentSubmit toLowerCase none inp st).1 := by
  obtain ⟨hpost, cs, hholds, hcomments⟩ := h
  by_cases hblank : trim inp.name = [] ∨ trim inp.text = []
  · rw [handleCommentSubmit_invalid _ _ _ _ hblank]
    exact ⟨hpost, cs, hholds, hcomments⟩
  · rw [not_or] at hblank
    obtain ⟨c, hcp, hrec⟩ : ∃ c : Comment, c.post_id = mockNewsData.featured.id ∧
        buildComment toLowerCase mockNewsData.featured (trim inp.name) (trim inp.text) inp = c.toJS := by
      obtain ⟨response, -, hrec⟩ := buildComment_record toLowerCase mockNewsData.featured
        (trim inp.name) (trim inp.text) inp h0 h1
      exact ⟨_, rfl, hrec⟩
    cases hok : inp.setItemOk with
    | true =>
      have hsave := saveComment_local_accept st.localStorage cs hholds
        (buildComment toLowerCase mockNewsData.featured (trim inp.name) (trim inp.text) inp)
      rw [← hok] at hsave
      rw [handleCommentSubmit_ok toLowerCase none inp st mockNewsData.featured hpost hblank.1 hblank.2
        _ _ hsave]
      refine ⟨hpost, cs ++ [c], ?_, ?_⟩
      · simp only [hrec]
        have := holds_stringify (cs ++ [c])
        simpa using this
      · simp [hrec, hcomments, hcp]
    | false =>
      have hsave := saveComment_local_reject st.localStorage cs hholds
        (buildComment toLowerCase mockNewsData.featured (trim inp.name) (trim inp.text) inp)
      rw [← hok] at hsave
      rw [handleCommentSubmit_error toLowerCase none inp st mockNewsData.featured hpost hblank.1 hblank.2
        _ _ hsave]
      exact ⟨hpost, cs, hholds, hcomments⟩

theorem consistent_submitAll (toLowerCase : JSString → JSString) (inputs : List SubmitInput)
    (hrnd : ∀ inp ∈ inputs, 0 ≤ inp.rnd ∧ inp.rnd < 1) (st : AppState) (h : Consistent st) :
    Consistent (submitAll toLowerCase none inputs st) := by
  induction inputs generalizing st with
  | nil => exact h
  | cons inp more ih =>
    have hi := hrnd inp (List.mem_cons_self _ _)
    exact ih (fun q hq => hrnd q (List.mem_cons_of_mem _ hq)) _
      (consistent_submit toLowerCase inp hi.1 hi.2 st h)

/-! ## Comment store and controller: claims -/

/-- C3. Save-then-load on the local fallback store: starting from an empty
store (item absent, or `[]`), after `saveComment` of any sequence of records,
`loadComments(p)` returns exactly the records with `post_id = p`, each equal to
the record passed to `saveComment`, in the order saved; their number is the
number of saved records with `post_id = p`. -/
theorem save_then_load (storage0 : Option JSString)
    (hempty : storage0 = none ∨ storage0 = some (lit "[]"))
    (cs : List Comment) (p : JSString) :
    (loadComments none (saveAll (cs.map Comment.toJS) storage0) p).1
        = .ok ((cs.filter fun c => decide (c.post_id = p)).map Comment.toJS) ∧
      ((cs.filter fun c => decide (c.post_id = p)).map Comment.toJS).length
        = cs.countP (fun c => decide (c.post_id = p)) := by
  have h0 : Holds storage0 [] := by
    rcases hempty with h | h
    · rw [h]; exact holds_none
    · rw [h]; exact holds_empty_array
  have h := holds_saveAll cs storage0 [] h0
  rw [List.nil_append] at h
  refine ⟨by rw [loadComments_local _ cs h], ?_⟩
  rw [List.length_map, List.countP_eq_length_filter]

/-- C3 at a concrete input: two records of `news-1` and one of `news-2`. -/
theorem save_then_load_witness :
    (loadComments none
        (saveAll ([sampleLate, sampleOther, sampleEarly].map Comment.toJS) (some (lit "[]")))
        (lit "news-1")).1
        = .ok (([sampleLate, sampleOther, sampleEarly].filter
            fun c => decide (c.post_id = lit "news-1")).map Comment.toJS) ∧
      (([sampleLate, sampleOther, sampleEarly].filter
            fun c => decide (c.post_id = lit "news-1")).map Comment.toJS).length
        = [sampleLate, sampleOther, sampleEarly].countP
            (fun c => decide (c.post_id = lit "news-1")) :=
  save_then_load (some (lit "[]")) (Or.inr rfl) [sampleLate, sampleOther, sampleEarly]
    (lit "news-1")

/-- C4, evaluated on the local fallback store: after saving a record created on
2 January and then one created on 1 January, `loadComments` returns them in the
order saved, which is not ascending in `created_at`. -/
theorem loadComments_local_insertion_order :
    (loadComments none (saveAll [sampleLate.toJS, sampleEarly.toJS] none) (lit "news-1")).1
        = .ok [sampleLate.toJS, sampleEarly.toJS] ∧
      ascendingByCreatedAt [sampleLate.toJS, sampleEarly.toJS] = false := by
  have h := holds_saveAll [sampleLate, sampleEarly] none [] holds_none
  rw [List.nil_append] at h
  refine ⟨?_, by decide⟩
  have hl := loadComments_local _ _ h (lit "news-1")
  simp only [List.map_cons, List.map_nil] at hl
  rw [hl]
  rfl

/-- C5. If the submitted author name or comment text is empty or only white
space, `handleCommentSubmit` leaves the whole state (comment sequence and store
included) unchanged, and its only effect is the warning toast: no record is
created and `saveComment` is not called. -/
theorem handleCommentSubmit_blank (toLowerCase : JSString → JSString)
    (supabase : Option SupabaseClient) (inp : SubmitInput) (st : AppState)
    (hblank : (∀ c ∈ inp.name, isTrimmable c = true) ∨ (∀ c ∈ inp.text, isTrimmable c = true)) :
    (handleCommentSubmit toLowerCase supabase inp st).1 = st ∧
      (handleCommentSubmit toLowerCase supabase inp st).2
        = [Event.toast (lit "Please fill in all fields") (lit "error")] ∧
      ∀ comment, Event.saveCommentCall comment ∉ (handleCommentSubmit toLowerCase supabase inp st).2 := by
  have h : trim inp.name = [] ∨ trim inp.text = [] :=
    hblank.imp (trim_eq_nil_iff _).mpr (trim_eq_nil_iff _).mpr
  rw [handleCommentSubmit_invalid toLowerCase supabase inp st h]
  exact ⟨rfl, rfl, fun comment hmem => by simp at hmem⟩

/-- C5 at a concrete input: the author name `" \t "`. -/
theorem handleCommentSubmit_blank_witness :
    (handleCommentSubmit asciiLower none sampleBlank (loadNews none (initialState none)).1).1
        = (loadNews none (initialState none)).1 ∧
      (handleCommentSubmit asciiLower none sampleBlank (loadNews none (initialState none)).1).2
        = [Event.toast (lit "Please fill in all fields") (lit "error")] ∧
      ∀ comment, Event.saveCommentCall comment ∉
        (handleCommentSubmit asciiLower none sampleBlank (loadNews none (initialState none)).1).2 :=
  handleCommentSubmit_blank asciiLower none sampleBlank (loadNews none (initialState none)).1
    (Or.inl (by decide))

/-- C6, evaluated on the local fallback store: when the item `'comments'` is
not JSON, or is JSON but no array, or is an array with a `null` element,
`loadComments` throws instead of returning the empty sequence, and `loadNews`
ends in the error panel; a remote query that reports an error gives the empty
sequence. -/
theorem loadComments_local_throws :
    (loadComments none (some (lit "not json")) (lit "news-1")).1 = .error .syntaxError ∧
      (loadComments none (some (lit "{}")) (lit "news-1")).1 = .error .typeError ∧
      (loadComments none (some (lit "[null]")) (lit "news-1")).1 = .error .typeError ∧
      (loadNews none (initialState (some (lit "not json")))).1.phase = Phase.error ∧
      (loadComments (some failingClient) none (lit "news-1")).1 = .ok [] :=
  ⟨rfl, rfl, rfl, rfl, rfl⟩

/-- C7. With a selected post and a name and text that are non-empty after
trimming, if `saveComment` throws then `handleCommentSubmit` does not append:
the in-memory comment sequence is the one before the submit. -/
theorem handleCommentSubmit_save_fails (toLowerCase : JSString → JSString)
    (supabase : Option SupabaseClient) (inp : SubmitInput) (st : AppState) (post : Post)
    (hpost : st.currentPost = some post) (hname : trim inp.name ≠ [])
    (htext : trim inp.text ≠ []) (e : JSError)
    (hsave : (saveComment supabase inp.setItemOk st.localStorage
      (buildComment toLowerCase post (trim inp.name) (trim inp.text) inp)).1 = .error e) :
    (handleCommentSubmit toLowerCase supabase inp st).1.comments = st.comments := by
  rw [handleCommentSubmit_error toLowerCase supabase inp st post hpost hname htext e
    (saveComment supabase inp.setItemOk st.localStorage
      (buildComment toLowerCase post (trim inp.name) (trim inp.text) inp)).2
    (Prod.ext hsave rfl)]

/-- C7 at a concrete input: the remote insert reports an error. -/
theorem handleCommentSubmit_save_fails_witness :
    (handleCommentSubmit asciiLower (some failingClient) sampleSubmit
        (loadNews (some failingClient) (initialState none)).1).1.comments
      = (loadNews (some failingClient) (initialState none)).1.comments :=
  handleCommentSubmit_save_fails asciiLower (some failingClient) sampleSubmit
    (loadNews (some failingClient) (initialState none)).1 mockNewsData.featured rfl
    (by decide) (by decide) JSError.remoteError rfl

/-- C8. With a selected post, a name and text that are non-empty after trimming,
a random draw in `[0, 1)` and a `saveComment` that returns, `handleCommentSubmit`
appends exactly one record at the end of the in-memory sequence: the old
sequence is a prefix of the new one, the length grows by one, and the record
has the trimmed name and text, the selected post's id, the given id and
timestamp, and a non-empty `ai_response`. -/
theorem handleCommentSubmit_appends (toLowerCase : JSString → JSString)
    (supabase : Option SupabaseClient) (inp : SubmitInput) (st : AppState) (post : Post)
    (hpost : st.currentPost = some post) (hname : trim inp.name ≠ [])
    (htext : trim inp.text ≠ []) (h0 : 0 ≤ inp.rnd) (h1 : inp.rnd < 1) (v : JSValue)
    (hsave : (saveComment supabase inp.setItemOk st.localStorage
      (buildComment toLowerCase post (trim inp.name) (trim inp.text) inp)).1 = .ok v) :
    ∃ response : JSString, response ≠ [] ∧
      (handleCommentSubmit toLowerCase supabase inp st).1.comments
        = st.comments ++ [Comment.toJS
            { id := inp.uuid, post_id := post.id, author_name := trim inp.name,
              content := trim inp.text, created_at := inp.now, ai_response := response }] ∧
      st.comments <+: (handleCommentSubmit toLowerCase supabase inp st).1.comments ∧
      (handleCommentSubmit toLowerCase supabase inp st).1.comments.length
        = st.comments.length + 1 := by
  obtain ⟨response, hne, hrec⟩ := buildComment_record toLowerCase post
    (trim inp.name) (trim inp.text) inp h0 h1
  have hstep := handleCommentSubmit_ok toLowerCase supabase inp st post hpost hname htext v
    (saveComment supabase inp.setItemOk st.localStorage
      (buildComment toLowerCase post (trim inp.name) (trim inp.text) inp)).2
    (Prod.ext hsave rfl)
  refine ⟨response, hne, ?_, ?_, ?_⟩
  · rw [hstep, hrec]
  · rw [hstep]; exact List.prefix_append _ _
  · rw [hstep]; simp

/-- C8 at a concrete input: a first comment on the local store. -/
theorem handleCommentSubmit_appends_witness :
    ∃ response : JSString, response ≠ [] ∧
      (handleCommentSubmit asciiLower none sampleSubmit
          (loadNews none (initialState none)).1).1.comments
        = (loadNews none (initialState none)).1.comments ++ [Comment.toJS
            { id := sampleSubmit.uuid, post_id := mockNewsData.featured.id,
              author_name := trim sampleSubmit.name, content := trim sampleSubmit.text,
              created_at := sampleSubmit.now, ai_response := response }] ∧
      (loadNews none (initialState none)).1.comments <+:
        (handleCommentSubmit asciiLower none sampleSubmit
          (loadNews none (initialState none)).1).1.comments ∧
      (handleCommentSubmit asciiLower none sampleSubmit
          (loadNews none (initialState none)).1).1.comments.length
        = (loadNews none (initialState none)).1.comments.length + 1 :=
  handleCommentSubmit_appends asciiLower none sampleSubmit (loadNews none (initialState none)).1
    mockNewsData.featured rfl (by decide) (by decide) (by norm_num [sampleSubmit])
    (by norm_num [sampleSubmit])
    (buildComment asciiLower mockNewsData.featured (trim sampleSubmit.name) (trim sampleSubmit.text)
      sampleSubmit) rfl

/-- C9. Persisted records are never mutated or deleted on the local fallback
store: when the store holds the records `cs`, `saveComment` of a record returns
it and leaves the store holding `cs` followed by the record, every record of
`cs` in its position; if `localStorage` rejects the write, `saveComment` throws
and the item is as it was; and `loadComments` leaves the item as it was. -/
theorem local_store_append_only (storage : Option JSString) (cs : List Comment)
    (h : Holds storage cs) (c : Comment) (postId : JSString) :
    (saveComment none true storage c.toJS).1 = .ok c.toJS ∧
      Holds (saveComment none true storage c.toJS).2 (cs ++ [c]) ∧
      saveComment none false storage c.toJS = (.error .quotaExceeded, storage) ∧
      (loadComments none storage postId).2 = storage := by
  refine ⟨?_, holds_after_save storage cs h c, saveComment_local_reject storage cs h _, ?_⟩
  · rw [saveComment_local_accept storage cs h]
  · rw [loadComments_local storage cs h]

/-- C9 at a concrete input: a record saved into a store that holds two. -/
theorem local_store_append_only_witness :
    (saveComment none true
        (some (stringify (JSValue.arr ([sampleEarly, sampleOther].map Comment.toJS))))
        sampleLate.toJS).1 = .ok sampleLate.toJS ∧
      Holds (saveComment none true
        (some (stringify (JSValue.arr ([sampleEarly, sampleOther].map Comment.toJS))))
        sampleLate.toJS).2 ([sampleEarly, sampleOther] ++ [sampleLate]) ∧
      saveComment none false
        (some (stringify (JSValue.arr ([sampleEarly, sampleOther].map Comment.toJS))))
        sampleLate.toJS
        = (.error .quotaExceeded,
            some (stringify (JSValue.arr ([sampleEarly, sampleOther].map Comment.toJS)))) ∧
      (loadComments none
        (some (stringify (JSValue.arr ([sampleEarly, sampleOther].map Comment.toJS))))
        (lit "news-1")).2
        = some (stringify (JSValue.arr ([sampleEarly, sampleOther].map Comment.toJS))) :=
  local_store_append_only
    (some (stringify (JSValue.arr ([sampleEarly, sampleOther].map Comment.toJS))))
    [sampleEarly, sampleOther] (holds_stringify _) sampleLate (lit "news-1")

/-- C10. On the local fallback backend, from a store of Comment Records:
`loadNews` loads the comments of the featured post, and after any further
sequence of `handleCommentSubmit` calls (valid, invalid, or with a rejected
write) whose random draws are in `[0, 1)`, a post is selected and the in-memory
comment sequence is what `loadComments` of that post's id returns from the
store at that moment. -/
theorem comments_match_store (toLowerCase : JSString → JSString) (st0 : AppState)
    (cs0 : List Comment) (h : Holds st0.localStorage cs0) (inputs : List SubmitInput)
    (hrnd : ∀ inp ∈ inputs, 0 ≤ inp.rnd ∧ inp.rnd < 1) :
    (loadNews none st0).1.phase = Phase.ready ∧
    ∃ post, (submitAll toLowerCase none inputs (loadNews none st0).1).currentPost = some post ∧
      (loadComments none (submitAll toLowerCase none inputs (loadNews none st0).1).localStorage
          post.id).1
        = .ok (submitAll toLowerCase none inputs (loadNews none st0).1).comments := by
  obtain ⟨hpost, cs, hholds, hcomments⟩ :=
    consistent_submitAll toLowerCase inputs hrnd _ (consistent_loadNews st0 cs0 h)
  refine ⟨?_, mockNewsData.featured, hpost, by rw [loadComments_local _ cs hholds, hcomments]⟩
  simp only [loadNews, displayFeaturedPost, displayComments,
    loadComments_local st0.localStorage cs0 h]

/-- C10 at a concrete input: a valid submission, a blank one, and one whose
write is rejected, on a store that already holds two records. -/
theorem comments_match_store_witness :
    (loadNews none (initialState
        (some (stringify (JSValue.arr ([sampleEarly, sampleOther].map Comment.toJS)))))).1.phase
      = Phase.ready ∧
    ∃ post, (submitAll asciiLower none
          [sampleSubmit, sampleBlank, { sampleSubmit with setItemOk := false }]
          (loadNews none (initialState
            (some (stringify (JSValue.arr ([sampleEarly, sampleOther].map Comment.toJS))))) ).1
        ).currentPost = some post ∧
      (loadComments none (submitAll asciiLower none
          [sampleSubmit, sampleBlank, { sampleSubmit with setItemOk := false }]
          (loadNews none (initialState
            (some (stringify (JSValue.arr ([sampleEarly, sampleOther].map Comment.toJS))))) ).1
        ).localStorage post.id).1
        = .ok (submitAll asciiLower none
          [sampleSubmit, sampleBlank, { sampleSubmit with setItemOk := false }]
          (loadNews none (initialState
            (some (stringify (JSValue.arr ([sampleEarly, sampleOther].map Comment.toJS))))) ).1
        ).comments :=
  comments_match_store asciiLower
    (initialState (some (stringify (JSValue.arr ([sampleEarly, sampleOther].map Comment.toJS)))))
    [sampleEarly, sampleOther] (holds_stringify _)
    [sampleSubmit, sampleBlank, { sampleSubmit with setItemOk := false }]
    (by
      intro inp hinp
      simp only [List.mem_cons, List.mem_singleton, List.not_mem_nil, or_false] at hinp
      rcases hinp with rfl | rfl | rfl <;> norm_num [sampleSubmit, sampleBlank])

end BloggerSphere
